import Mathlib

/-!
Verification of the Action coordinator component and its change-detection
hook from nextjs-action-client-component.

Source embedded here:
- src/app/action.js : the Action client component (the Suspense Coordinator).
- src/unnamed/part_000 lines 59-67 : the usePropsChangedKey hook (the
  Change-Key Tracker), given verbatim in the repository document.

The host runtime semantics (React) needed by this code are embedded
explicitly:
- useState keeps a per-instance state cell across renders.
- useEffect stores the dependency list supplied at each render and, at
  commit time, runs its body iff this is the first render or the stored
  list from the previous render differs from the current one under
  positional shallow comparison (Object.is per element, lengths equal).
- A state update made inside an effect triggers a further render cycle.
- The Suspense element shows its fallback while the wrapped unit of work
  is pending and the settled result afterwards.

One render-and-commit cycle of the component is the function renderStep.
A run is a fold of renderStep over the sequence of prop bags supplied to
successive renders (consecutive equal entries model re-renders caused by
the component's own state updates or by the parent).
-/

/-- A JavaScript value as seen by shallow (Object.is) comparison:
primitives compare by value, composite objects by reference identity.
The payload field of obj lets two distinct allocations carry equal
contents. -/
inductive JSValue where
  | prim (n : Nat)
  | obj (id : Nat) (payload : Nat)
deriving DecidableEq

/-- Object.is: value equality on primitives, reference equality on
objects. -/
def shallowEq : JSValue → JSValue → Bool
  | .prim n, .prim m => n == m
  | .obj i _, .obj j _ => i == j
  | _, _ => false

/-- Deep value equality (contents of composites compared), used only to
express that two lists are value-equal though not shallow-equal. -/
def valueEq : JSValue → JSValue → Bool
  | .prim n, .prim m => n == m
  | .obj _ a, .obj _ b => a == b
  | _, _ => false

/-- React dependency-list comparison (areHookInputsEqual): lists are
equal iff they have the same length and are pointwise Object.is-equal. -/
def depsEq : List JSValue → List JSValue → Bool
  | [], [] => true
  | a :: as, b :: bs => shallowEq a b && depsEq as bs
  | _, _ => false

/-- Renderable content. A text leaf models plain JSX such as the
loading fragment; suspense models a Suspense element wrapping the unit
of work numbered by its invocation index. -/
inductive Content where
  | text (s : String)
  | suspense (fallback : Content) (work : Nat)
deriving DecidableEq

/-- The Action component's props after destructuring: the action
function (identified by reference id), the children fallback (default
the loading fragment), and the rest-spread bag of named inputs in
insertion order. -/
structure Props where
  action : Nat
  children : Content
  rest : List (String × JSValue)
deriving DecidableEq

/-- The default for the children prop in src/app/action.js line 8:
the literal loading fragment. -/
def defaultChildren : Content := .text "loading..."

/-- Object.values of the rest-props bag (src/app/action.js line 12):
the values in insertion order, names dropped. -/
def bagValues (rest : List (String × JSValue)) : List JSValue :=
  rest.map Prod.snd

/-- A recorded producer invocation: which function reference was called
and the named-input bag passed to it verbatim. -/
structure Invocation where
  action : Nat
  args : List (String × JSValue)
deriving DecidableEq

/-- Hook state of one mounted Action instance.
jsx            : the JSX useState cell (line 11).
k              : the propsChangedKey useState cell (hook line 60).
tdeps          : deps stored by the tracker effect (hook line 64), none
                 before the first render.
adeps          : deps stored by the Action effect (line 16), i.e. the
                 propsChangedKey value observed at the previous render.
invocations    : log of producer invocations, oldest first; the index of
                 an invocation is the id of its unit of work. -/
structure ActionState where
  jsx : Content
  k : Nat
  tdeps : Option (List JSValue)
  adeps : Option Nat
  invocations : List Invocation
deriving DecidableEq

/-- State at mount: useState(children) and useState(0), no effect has
stored deps yet, no invocation yet. -/
def initState (children : Content) : ActionState :=
  ⟨children, 0, none, none, []⟩

/-- Does the tracker effect fire at this commit? Yes on first render,
else iff the dep list changed under positional shallow comparison. -/
def fireTracker (s : ActionState) (args : List JSValue) : Bool :=
  match s.tdeps with
  | none => true
  | some old => !(depsEq old args)

/-- Does the Action effect fire at this commit? Yes on first render,
else iff propsChangedKey differs from the value at the previous
render. -/
def fireAction (s : ActionState) : Bool :=
  match s.adeps with
  | none => true
  | some old => old != s.k

/-- One render-and-commit cycle with prop bag p.
Render: the body reads jsx and k, computes args = Object.values(rest),
and both effects record their current deps. Commit: the tracker effect,
if firing, runs setPropsChangedKey(k => k + 1); the Action effect, if
firing, calls action(props) — appended to the log — and stores the new
Suspense element wrapping that unit of work with fallback children. -/
def renderStep (s : ActionState) (p : Props) : ActionState :=
  let args := bagValues p.rest
  let fT := fireTracker s args
  let fA := fireAction s
  ⟨if fA then .suspense p.children s.invocations.length else s.jsx,
   if fT then s.k + 1 else s.k,
   some args,
   some s.k,
   if fA then s.invocations ++ [⟨p.action, p.rest⟩] else s.invocations⟩

/-- A run: fold the cycle over the sequence of prop bags supplied to
successive renders. -/
def runFrom (s : ActionState) (ps : List Props) : ActionState :=
  ps.foldl renderStep s

/-- The rendering host's display of content at time t, given each unit
of work's settle time and settled result: a Suspense element shows its
fallback while pending and the settled result afterwards; text shows
itself. -/
def displayAt (settleTime : Nat → Nat) (result : Nat → Content)
    (t : Nat) : Content → Content
  | .text s => .text s
  | .suspense f w =>
      if settleTime w ≤ t then result w else displayAt settleTime result t f

/-- shallowEq is reflexive. -/
theorem shallowEq_refl (v : JSValue) : shallowEq v v = true := by
  cases v <;> simp [shallowEq]

/-- depsEq is reflexive. -/
theorem depsEq_refl (l : List JSValue) : depsEq l l = true := by
  induction l with
  | nil => rfl
  | cons a as ih => simp [depsEq, shallowEq_refl, ih]

/-- depsEq holds iff lengths agree and zipped pairs are shallow-equal. -/
theorem depsEq_iff (old new : List JSValue) :
    depsEq old new = true ↔
      old.length = new.length ∧
        ∀ pr ∈ old.zip new, shallowEq pr.1 pr.2 = true := by
  induction old generalizing new with
  | nil => cases new <;> simp [depsEq]
  | cons a as ih =>
      cases new with
      | nil => simp [depsEq]
      | cons b bs =>
          simp only [depsEq, Bool.and_eq_true, ih, List.zip_cons_cons,
            List.length_cons, List.mem_cons]
          constructor
          · rintro ⟨hab, hlen, hall⟩
            refine ⟨by omega, ?_⟩
            rintro pr (rfl | hpr)
            · exact hab
            · exact hall pr hpr
          · rintro ⟨hlen, hall⟩
            exact ⟨hall (a, b) (Or.inl rfl), by omega,
              fun pr hpr => hall pr (Or.inr hpr)⟩

/-- One render cycle never decreases the version key. -/
theorem renderStep_k_le (s : ActionState) (p : Props) :
    s.k ≤ (renderStep s p).k := by
  simp only [renderStep]
  split <;> omega

/-- A whole run never decreases the version key. -/
theorem runFrom_k_le (s : ActionState) (ps : List Props) :
    s.k ≤ (runFrom s ps).k := by
  induction ps generalizing s with
  | nil => exact Nat.le_refl _
  | cons p ps ih =>
      exact Nat.le_trans (renderStep_k_le s p) (ih (renderStep s p))

/-- C1: for every advance of the version key — a render cycle whose
observed propsChangedKey differs from the value stored at the previous
cycle — the commit runs the Action effect exactly once, appending exactly
one invocation that passes the current rest bag (all props except action
and children) verbatim to the current action reference. -/
theorem C1_producer_once_per_advance (s : ActionState) (p : Props)
    (k₀ : Nat) (hprev : s.adeps = some k₀) (hadv : k₀ ≠ s.k) :
    (renderStep s p).invocations = s.invocations ++ [⟨p.action, p.rest⟩] := by
  simp [renderStep, fireAction, hprev, hadv]

/-- C1 witness: a cycle observing the advance 0 to 1 invokes action 7
once with the bag containing id. -/
theorem C1_producer_once_per_advance_witness :
    (renderStep ⟨Content.text "x", 1, some [JSValue.prim 3], some 0, []⟩
        ⟨7, Content.text "x", [("id", JSValue.prim 3)]⟩).invocations
      = [] ++ [⟨7, [("id", JSValue.prim 3)]⟩] :=
  C1_producer_once_per_advance _ _ 0 rfl (by decide)

/-- C2 counterexample: the claim as stated is false. Mount with the bag
containing userId, then re-render with the very same props (unchanged
input set, same producer reference 0): the second cycle's commit still
appends a producer invocation, because the mount run of the tracker
effect advanced the key from 0 to 1. -/
theorem C2_counterexample :
    (renderStep (renderStep (initState defaultChildren)
        ⟨0, defaultChildren, [("userId", JSValue.prim 1)]⟩)
        ⟨0, defaultChildren, [("userId", JSValue.prim 1)]⟩).invocations ≠
      (renderStep (initState defaultChildren)
        ⟨0, defaultChildren, [("userId", JSValue.prim 1)]⟩).invocations := by
  decide

/-- C2 amended: once the mount transient has settled — the render
observes a key equal to the stored one — a re-render whose input values
are unchanged under positional shallow comparison triggers no producer
invocation, leaves the displayed content unchanged, and leaves the key
unchanged (a stable producer reference alone never re-invokes, as the
action reference is not a dependency). -/
theorem C2_no_reinvoke_when_settled (s : ActionState) (p : Props)
    (old : List JSValue) (htd : s.tdeps = some old)
    (hunch : depsEq old (bagValues p.rest) = true)
    (hkey : s.adeps = some s.k) :
    (renderStep s p).invocations = s.invocations ∧
      (renderStep s p).jsx = s.jsx ∧ (renderStep s p).k = s.k := by
  simp [renderStep, fireTracker, fireAction, htd, hkey, hunch]

/-- C2 witness: a settled instance with one stored invocation re-renders
with the same input value and nothing changes. -/
theorem C2_no_reinvoke_when_settled_witness :
    (renderStep ⟨Content.suspense defaultChildren 0, 1,
        some [JSValue.prim 2], some 1, [⟨5, [("a", JSValue.prim 2)]⟩]⟩
        ⟨5, defaultChildren, [("a", JSValue.prim 2)]⟩).invocations
      = [⟨5, [("a", JSValue.prim 2)]⟩] ∧
    (renderStep ⟨Content.suspense defaultChildren 0, 1,
        some [JSValue.prim 2], some 1, [⟨5, [("a", JSValue.prim 2)]⟩]⟩
        ⟨5, defaultChildren, [("a", JSValue.prim 2)]⟩).jsx
      = Content.suspense defaultChildren 0 ∧
    (renderStep ⟨Content.suspense defaultChildren 0, 1,
        some [JSValue.prim 2], some 1, [⟨5, [("a", JSValue.prim 2)]⟩]⟩
        ⟨5, defaultChildren, [("a", JSValue.prim 2)]⟩).k = 1 :=
  C2_no_reinvoke_when_settled _ _ [JSValue.prim 2] rfl (by decide) rfl

/-- C3 counterexample: the claim as stated is false. One mount
render-and-effect cycle with a constant input list already moves the
key off 0: the tracker effect runs on its first evaluation. -/
theorem C3_counterexample :
    (renderStep (initState defaultChildren)
        ⟨0, defaultChildren, [("userId", JSValue.prim 1)]⟩).k ≠ 0 := by
  decide

/-- C3 amended: the key is created at 0 and is still 0 throughout the
first render, but the mount run of the tracker effect increments it, so
it is 1 after the first render-and-effect cycle even with no input
change; further cycles leave it unchanged until the input list changes
under positional shallow comparison. -/
theorem C3_key_after_mount (c : Content) (p : Props) :
    (initState c).k = 0 ∧
    (renderStep (initState c) p).k = 1 ∧
    ∀ (s : ActionState) (old : List JSValue), s.tdeps = some old →
      depsEq old (bagValues p.rest) = true → (renderStep s p).k = s.k := by
  refine ⟨rfl, ?_, ?_⟩
  · simp [renderStep, fireTracker, initState]
  · intro s old htd hunch
    simp [renderStep, fireTracker, htd, hunch]

/-- C3 witness: concrete mount with one input; a later settled cycle
with the same value keeps the key at 1. -/
theorem C3_key_after_mount_witness :
    (initState defaultChildren).k = 0 ∧
    (renderStep (initState defaultChildren)
        ⟨0, defaultChildren, [("b", JSValue.prim 4)]⟩).k = 1 ∧
    (renderStep ⟨defaultChildren, 1, some [JSValue.prim 4], some 1, []⟩
        ⟨0, defaultChildren, [("b", JSValue.prim 4)]⟩).k = 1 := by
  have h := C3_key_after_mount defaultChildren
    ⟨0, defaultChildren, [("b", JSValue.prim 4)]⟩
  exact ⟨h.1, h.2.1,
    h.2.2 ⟨defaultChildren, 1, some [JSValue.prim 4], some 1, []⟩
      [JSValue.prim 4] rfl (by decide)⟩

/-- C4 counterexample: the claim as stated is false. Two consecutive
cycles with identical input lists — the first cycle and an immediate
re-render — show the key increasing by 1 although the tracked input set
never changed: the mount run of the tracker effect increments it. -/
theorem C4_counterexample :
    (renderStep (initState (Content.text "x"))
        ⟨0, Content.text "x", [("a", JSValue.prim 2)]⟩).k
      = (initState (Content.text "x")).k + 1 := by
  decide

/-- C4 amended: the key increases by exactly 1 at the first cycle
(mount) and at any cycle whose input list differs from the previous
cycle's under positional shallow comparison; it increases by 0 at any
later cycle whose input list is unchanged; and it never decreases over
any run. -/
theorem C4_key_monotone_steps :
    (∀ (s : ActionState) (p : Props), s.tdeps = none →
      (renderStep s p).k = s.k + 1) ∧
    (∀ (s : ActionState) (p : Props) (old : List JSValue),
      s.tdeps = some old → depsEq old (bagValues p.rest) = false →
      (renderStep s p).k = s.k + 1) ∧
    (∀ (s : ActionState) (p : Props) (old : List JSValue),
      s.tdeps = some old → depsEq old (bagValues p.rest) = true →
      (renderStep s p).k = s.k) ∧
    (∀ (s : ActionState) (ps : List Props), s.k ≤ (runFrom s ps).k) := by
  refine ⟨?_, ?_, ?_, fun s ps => runFrom_k_le s ps⟩
  · intro s p htd
    simp [renderStep, fireTracker, htd]
  · intro s p old htd hch
    simp [renderStep, fireTracker, htd, hch]
  · intro s p old htd hunch
    simp [renderStep, fireTracker, htd, hunch]

/-- C4 witness: the three step cases and monotonicity at concrete
states. -/
theorem C4_key_monotone_steps_witness :
    (renderStep (initState defaultChildren)
        ⟨0, defaultChildren, [("a", JSValue.prim 1)]⟩).k = 1 ∧
    (renderStep ⟨defaultChildren, 1, some [JSValue.prim 1], some 1, []⟩
        ⟨0, defaultChildren, [("a", JSValue.prim 2)]⟩).k = 2 ∧
    (renderStep ⟨defaultChildren, 1, some [JSValue.prim 1], some 1, []⟩
        ⟨0, defaultChildren, [("a", JSValue.prim 1)]⟩).k = 1 ∧
    (⟨defaultChildren, 1, some [JSValue.prim 1], some 1, []⟩ :
        ActionState).k ≤
      (runFrom ⟨defaultChildren, 1, some [JSValue.prim 1], some 1, []⟩
        [⟨0, defaultChildren, [("a", JSValue.prim 2)]⟩]).k := by
  have h := C4_key_monotone_steps
  exact ⟨h.1 (initState defaultChildren)
      ⟨0, defaultChildren, [("a", JSValue.prim 1)]⟩ rfl,
    h.2.1 ⟨defaultChildren, 1, some [JSValue.prim 1], some 1, []⟩
      ⟨0, defaultChildren, [("a", JSValue.prim 2)]⟩ [JSValue.prim 1]
      rfl (by decide),
    h.2.2.1 ⟨defaultChildren, 1, some [JSValue.prim 1], some 1, []⟩
      ⟨0, defaultChildren, [("a", JSValue.prim 1)]⟩ [JSValue.prim 1]
      rfl (by decide),
    h.2.2.2 ⟨defaultChildren, 1, some [JSValue.prim 1], some 1, []⟩
      [⟨0, defaultChildren, [("a", JSValue.prim 2)]⟩]⟩

/-- C5: whenever the Action effect fires, the stored display value
becomes a Suspense element whose fallback is the current children prop
and whose child is that invocation's unit of work; the host displays the
fallback content at every time strictly before the work settles and the
settled result at every time from settlement on. -/
theorem C5_fallback_until_settled (s : ActionState) (p : Props)
    (stt : Nat → Nat) (res : Nat → Content) (t : Nat)
    (hfire : fireAction s = true) :
    (renderStep s p).jsx
        = Content.suspense p.children s.invocations.length ∧
    (t < stt s.invocations.length →
      displayAt stt res t ((renderStep s p).jsx)
        = displayAt stt res t p.children) ∧
    (stt s.invocations.length ≤ t →
      displayAt stt res t ((renderStep s p).jsx)
        = res s.invocations.length) := by
  have hjsx : (renderStep s p).jsx
      = Content.suspense p.children s.invocations.length := by
    simp [renderStep, hfire]
  refine ⟨hjsx, ?_, ?_⟩
  · intro ht
    rw [hjsx]
    simp [displayAt, Nat.not_le.mpr ht]
  · intro ht
    rw [hjsx]
    simp [displayAt, ht]

/-- C5 witness: the mount invocation's wrapper shows the loading
fallback at time 0 and the settled greeting at time 5, with the work
settling at time 3. -/
theorem C5_fallback_until_settled_witness :
    (renderStep (initState defaultChildren)
        ⟨0, defaultChildren, [("userId", JSValue.prim 1)]⟩).jsx
      = Content.suspense defaultChildren 0 ∧
    displayAt (fun _ => 3) (fun _ => Content.text "hello roggc") 0
        ((renderStep (initState defaultChildren)
          ⟨0, defaultChildren, [("userId", JSValue.prim 1)]⟩).jsx)
      = displayAt (fun _ => 3) (fun _ => Content.text "hello roggc") 0
          defaultChildren ∧
    displayAt (fun _ => 3) (fun _ => Content.text "hello roggc") 5
        ((renderStep (initState defaultChildren)
          ⟨0, defaultChildren, [("userId", JSValue.prim 1)]⟩).jsx)
      = Content.text "hello roggc" := by
  have h0 := C5_fallback_until_settled (initState defaultChildren)
    ⟨0, defaultChildren, [("userId", JSValue.prim 1)]⟩
    (fun _ => 3) (fun _ => Content.text "hello roggc") 0 rfl
  have h5 := C5_fallback_until_settled (initState defaultChildren)
    ⟨0, defaultChildren, [("userId", JSValue.prim 1)]⟩
    (fun _ => 3) (fun _ => Content.text "hello roggc") 5 rfl
  exact ⟨h0.1, h0.2.1 (by decide), h5.2.2 (by decide)⟩

/-- C6: before any effect has run, the stored display value is exactly
the caller-supplied children value and no invocation has happened; when
the caller omits children, the default is the literal loading
fragment. -/
theorem C6_initial_display_is_fallback (c : Content) :
    (initState c).jsx = c ∧ (initState c).invocations = [] ∧
      (initState defaultChildren).jsx = Content.text "loading..." :=
  ⟨rfl, rfl, rfl⟩

/-- C7: the dependency comparison records a change exactly when the
lengths differ or some position compares unequal under Object.is;
value-equal but freshly allocated composites compare unequal under
Object.is though equal by contents; and whenever a change is recorded
the key advances and the very next cycle re-invokes the producer. -/
theorem C7_shallow_positional_detection (xs ys : List JSValue) :
    (depsEq xs ys = false ↔
      xs.length ≠ ys.length ∨
        ∃ pr ∈ xs.zip ys, shallowEq pr.1 pr.2 = false) ∧
    (∀ i j pay, i ≠ j →
      valueEq (JSValue.obj i pay) (JSValue.obj j pay) = true ∧
        shallowEq (JSValue.obj i pay) (JSValue.obj j pay) = false) ∧
    (∀ (s : ActionState) (p : Props), s.tdeps = some xs →
      bagValues p.rest = ys → depsEq xs ys = false →
      (renderStep s p).k = s.k + 1 ∧
        (renderStep (renderStep s p) p).invocations.length
          = (renderStep s p).invocations.length + 1) := by
  refine ⟨?_, ?_, ?_⟩
  · rw [Bool.eq_false_iff, Ne, depsEq_iff, not_and_or]
    simp [not_forall, Bool.not_eq_true]
  · intro i j pay hij
    constructor
    · simp [valueEq]
    · simp [shallowEq, hij]
  · intro s p htd hbag hch
    have h1 : (renderStep s p).k = s.k + 1 := by
      simp [renderStep, fireTracker, htd, hbag, hch]
    refine ⟨h1, ?_⟩
    have ha : (renderStep s p).adeps = some s.k := rfl
    have hfa : fireAction (renderStep s p) = true := by
      simp [fireAction, ha, h1, bne_iff_ne]
    generalize hs' : renderStep s p = s' at hfa ⊢
    simp [renderStep, hfa]

/-- C7 witness: a bag whose only value is a freshly allocated object of
equal contents is detected as a change and re-invokes the producer. -/
theorem C7_shallow_positional_detection_witness :
    (depsEq [JSValue.obj 1 9] [JSValue.obj 2 9] = false ↔
      ([JSValue.obj 1 9] : List JSValue).length
          ≠ ([JSValue.obj 2 9] : List JSValue).length ∨
        ∃ pr ∈ ([JSValue.obj 1 9] : List JSValue).zip [JSValue.obj 2 9],
          shallowEq pr.1 pr.2 = false) ∧
    (valueEq (JSValue.obj 1 9) (JSValue.obj 2 9) = true ∧
      shallowEq (JSValue.obj 1 9) (JSValue.obj 2 9) = false) ∧
    ((renderStep ⟨defaultChildren, 1, some [JSValue.obj 1 9], some 1, []⟩
        ⟨4, defaultChildren, [("data", JSValue.obj 2 9)]⟩).k = 2 ∧
      (renderStep (renderStep
          ⟨defaultChildren, 1, some [JSValue.obj 1 9], some 1, []⟩
          ⟨4, defaultChildren, [("data", JSValue.obj 2 9)]⟩)
          ⟨4, defaultChildren, [("data", JSValue.obj 2 9)]⟩).invocations.length
        = (renderStep ⟨defaultChildren, 1, some [JSValue.obj 1 9], some 1, []⟩
            ⟨4, defaultChildren, [("data", JSValue.obj 2 9)]⟩).invocations.length
          + 1) := by
  have h := C7_shallow_positional_detection [JSValue.obj 1 9] [JSValue.obj 2 9]
  exact ⟨h.1, h.2.1 1 2 9 (by decide),
    h.2.2 ⟨defaultChildren, 1, some [JSValue.obj 1 9], some 1, []⟩
      ⟨4, defaultChildren, [("data", JSValue.obj 2 9)]⟩ rfl rfl (by decide)⟩

/-- C8: whenever the tracker detects a change, the detecting cycle
still records the old key as the value it observed (the increment is
not visible in that render pass); the incremented key is published to
the following cycle; and re-running the cycle again with the same
inputs publishes no further update — exactly one visible key update per
detected change. -/
theorem C8_detect_then_publish (s : ActionState) (p : Props)
    (hdet : fireTracker s (bagValues p.rest) = true) :
    (renderStep s p).adeps = some s.k ∧
    (renderStep s p).k = s.k + 1 ∧
    (renderStep (renderStep s p) p).k = s.k + 1 := by
  refine ⟨rfl, ?_, ?_⟩
  · simp [renderStep, hdet]
  · have h1 : (renderStep s p).k = s.k + 1 := by
      simp [renderStep, hdet]
    have htd : (renderStep s p).tdeps = some (bagValues p.rest) := rfl
    generalize hs' : renderStep s p = s' at h1 htd ⊢
    simp [renderStep, fireTracker, htd, depsEq_refl, h1]

/-- C8 witness: the mount detection publishes key 1 on the next cycle
and a further identical cycle keeps it at 1. -/
theorem C8_detect_then_publish_witness :
    (renderStep (initState defaultChildren)
        ⟨0, defaultChildren, [("id", JSValue.prim 1)]⟩).adeps = some 0 ∧
    (renderStep (initState defaultChildren)
        ⟨0, defaultChildren, [("id", JSValue.prim 1)]⟩).k = 1 ∧
    (renderStep (renderStep (initState defaultChildren)
        ⟨0, defaultChildren, [("id", JSValue.prim 1)]⟩)
        ⟨0, defaultChildren, [("id", JSValue.prim 1)]⟩).k = 1 :=
  C8_detect_then_publish (initState defaultChildren)
    ⟨0, defaultChildren, [("id", JSValue.prim 1)]⟩ rfl

/-- C9: from a settled state, a render that changes only the action
reference (same input values, shallow) invokes nothing and leaves the
displayed content unchanged; when the inputs later change, the cycle
that observes the resulting key advance invokes exactly the action
reference supplied to it — the new reference is picked up only at that
advance. -/
theorem C9_producer_swap_inert (s : ActionState) (p q : Props)
    (a' : Nat) (old : List JSValue)
    (htd : s.tdeps = some old)
    (hunch : depsEq old (bagValues p.rest) = true)
    (hkey : s.adeps = some s.k)
    (hact : a' ≠ p.action) :
    (renderStep s ⟨a', p.children, p.rest⟩).invocations = s.invocations ∧
    (renderStep s ⟨a', p.children, p.rest⟩).jsx = s.jsx ∧
    (depsEq (bagValues p.rest) (bagValues q.rest) = false →
      (renderStep (renderStep (renderStep s ⟨a', p.children, p.rest⟩) q)
          q).invocations
        = s.invocations ++ [⟨q.action, q.rest⟩]) := by
  have hs1 : renderStep s ⟨a', p.children, p.rest⟩
      = ⟨s.jsx, s.k, some (bagValues p.rest), some s.k, s.invocations⟩ := by
    simp [renderStep, fireTracker, fireAction, htd, hkey, hunch]
  refine ⟨by rw [hs1], by rw [hs1], ?_⟩
  intro hch
  have hs2 : renderStep (⟨s.jsx, s.k, some (bagValues p.rest), some s.k,
      s.invocations⟩ : ActionState) q
      = ⟨s.jsx, s.k + 1, some (bagValues q.rest), some s.k,
         s.invocations⟩ := by
    simp [renderStep, fireTracker, fireAction, hch]
  have hs3 : renderStep (⟨s.jsx, s.k + 1, some (bagValues q.rest),
      some s.k, s.invocations⟩ : ActionState) q
      = ⟨Content.suspense q.children s.invocations.length, s.k + 1,
         some (bagValues q.rest), some (s.k + 1),
         s.invocations ++ [⟨q.action, q.rest⟩]⟩ := by
    simp [renderStep, fireTracker, fireAction, depsEq_refl]
  rw [hs1, hs2, hs3]

/-- C9 witness: swapping action 5 for 9 with the same input invokes
nothing; the next input change invokes action 9 once. -/
theorem C9_producer_swap_inert_witness :
    (renderStep ⟨defaultChildren, 1, some [JSValue.prim 1], some 1,
        [⟨5, [("id", JSValue.prim 1)]⟩]⟩
        ⟨9, defaultChildren, [("id", JSValue.prim 1)]⟩).invocations
      = [⟨5, [("id", JSValue.prim 1)]⟩] ∧
    (renderStep ⟨defaultChildren, 1, some [JSValue.prim 1], some 1,
        [⟨5, [("id", JSValue.prim 1)]⟩]⟩
        ⟨9, defaultChildren, [("id", JSValue.prim 1)]⟩).jsx
      = defaultChildren ∧
    (renderStep (renderStep (renderStep
        ⟨defaultChildren, 1, some [JSValue.prim 1], some 1,
          [⟨5, [("id", JSValue.prim 1)]⟩]⟩
        ⟨9, defaultChildren, [("id", JSValue.prim 1)]⟩)
        ⟨9, defaultChildren, [("id", JSValue.prim 2)]⟩)
        ⟨9, defaultChildren, [("id", JSValue.prim 2)]⟩).invocations
      = [⟨5, [("id", JSValue.prim 1)]⟩] ++ [⟨9, [("id", JSValue.prim 2)]⟩] := by
  have h := C9_producer_swap_inert
    ⟨defaultChildren, 1, some [JSValue.prim 1], some 1,
      [⟨5, [("id", JSValue.prim 1)]⟩]⟩
    ⟨5, defaultChildren, [("id", JSValue.prim 1)]⟩
    ⟨9, defaultChildren, [("id", JSValue.prim 2)]⟩
    9 [JSValue.prim 1] rfl (by decide) rfl (by decide)
  exact ⟨h.1, h.2.1, h.2.2 (by decide)⟩

/-- C10 counterexample: the claim as stated is false. Two consecutive
renders whose values are shallow-equal position by position (names a
and b differ) still see a producer invocation after the second render:
the mount advance of the key, not the bag, caused it. -/
theorem C10_counterexample :
    (renderStep (renderStep (initState defaultChildren)
        ⟨3, defaultChildren, [("a", JSValue.prim 1)]⟩)
        ⟨3, defaultChildren, [("b", JSValue.prim 1)]⟩).invocations.length
      = (renderStep (initState defaultChildren)
          ⟨3, defaultChildren, [("a", JSValue.prim 1)]⟩).invocations.length
        + 1 := by
  decide

/-- C10 amended: change detection sees only the values of the bag in
positional order, never the names; on a render that observes no pending
key advance, a bag whose values equal the previous cycle's values
position by position records no change and triggers no invocation, even
when every name differs. -/
theorem C10_names_ignored (s : ActionState) (p p' : Props)
    (hvals : p.rest.map Prod.snd = p'.rest.map Prod.snd)
    (htd : s.tdeps = some (bagValues p.rest))
    (hkey : s.adeps = some s.k) :
    (renderStep s p').k = s.k ∧
    (renderStep s p').invocations = s.invocations ∧
    (renderStep s p').jsx = s.jsx := by
  have hb : bagValues p'.rest = bagValues p.rest := by
    simp [bagValues, hvals]
  simp [renderStep, fireTracker, fireAction, htd, hkey, hb, depsEq_refl]

/-- C10 witness: renaming the only prop from a to b while keeping its
value leaves key, log and display untouched. -/
theorem C10_names_ignored_witness :
    (renderStep ⟨defaultChildren, 1, some [JSValue.prim 7], some 1, []⟩
        ⟨2, defaultChildren, [("b", JSValue.prim 7)]⟩).k = 1 ∧
    (renderStep ⟨defaultChildren, 1, some [JSValue.prim 7], some 1, []⟩
        ⟨2, defaultChildren, [("b", JSValue.prim 7)]⟩).invocations = [] ∧
    (renderStep ⟨defaultChildren, 1, some [JSValue.prim 7], some 1, []⟩
        ⟨2, defaultChildren, [("b", JSValue.prim 7)]⟩).jsx
      = defaultChildren :=
  C10_names_ignored ⟨defaultChildren, 1, some [JSValue.prim 7], some 1, []⟩
    ⟨2, defaultChildren, [("a", JSValue.prim 7)]⟩
    ⟨2, defaultChildren, [("b", JSValue.prim 7)]⟩
    rfl rfl rfl
